import Mathlib

/-!
Shallow embedding of the Mocha log-viewer backend (src/main.c) and proofs
about its incremental file reader, JSON escaping and recent-files store.

The file system is modelled as a partial map from paths to byte contents;
bytes are `Nat` values below 256 (the C code reads `unsigned char`s).
The external GUI host (webui) only transports the strings the bindings
build, so each binding is embedded as a pure function from its inputs and
the relevant disk state to the value it hands to the host.
-/

namespace Mocha

/-- `MAX_FILE_SIZE` from main.c: 10 * 1024 * 1024 bytes. -/
def MAX_FILE_SIZE : Int := 10 * 1024 * 1024

/-- Lowercase hex digit, as produced by the C `sprintf("\u%04x", c)` for
control bytes (values below 32, hence at most two significant digits). -/
def hexDigit (n : Nat) : Nat := if n < 10 then 48 + n else 87 + n

/-- The escape sequence `json_escape` emits for one input byte
(the `switch` body of `json_escape` in main.c). -/
def escByte (c : Nat) : List Nat :=
  if c = 34 then [92, 34]
  else if c = 92 then [92, 92]
  else if c = 8 then [92, 98]
  else if c = 12 then [92, 102]
  else if c = 10 then [92, 110]
  else if c = 13 then [92, 114]
  else if c = 9 then [92, 116]
  else if c < 32 then [92, 117, 48, 48, hexDigit (c / 16), hexDigit (c % 16)]
  else [c]

/-- `json_escape(str, len)` from main.c: escape every byte in turn. -/
def json_escape (s : List Nat) : List Nat := (s.map escByte).flatten

/-- Value of a hex digit byte (standard JSON `\uXXXX` digits,
either case). -/
def hexVal (d : Nat) : Option Nat :=
  if 48 ≤ d ∧ d ≤ 57 then some (d - 48)
  else if 97 ≤ d ∧ d ≤ 102 then some (d - 87)
  else if 65 ≤ d ∧ d ≤ 70 then some (d - 55)
  else none

/-- Modelled from the spec: the repository ships no decoder (the UI layer
decodes the payload), so this is the standard JSON string-body decoding
the spec's round-trip property refers to: a backslash introduces one of
the short escapes or a `\uXXXX` numeric escape, every other byte stands
for itself. -/
def jsonUnescape : List Nat → Option (List Nat)
  | [] => some []
  | b :: rest =>
    if b = 92 then
      match rest with
      | 34 :: r => (jsonUnescape r).map (fun t => 34 :: t)
      | 92 :: r => (jsonUnescape r).map (fun t => 92 :: t)
      | 98 :: r => (jsonUnescape r).map (fun t => 8 :: t)
      | 102 :: r => (jsonUnescape r).map (fun t => 12 :: t)
      | 110 :: r => (jsonUnescape r).map (fun t => 10 :: t)
      | 114 :: r => (jsonUnescape r).map (fun t => 13 :: t)
      | 116 :: r => (jsonUnescape r).map (fun t => 9 :: t)
      | 117 :: h1 :: h2 :: h3 :: h4 :: r =>
        match hexVal h1, hexVal h2, hexVal h3, hexVal h4 with
        | some x1, some x2, some x3, some x4 =>
          (jsonUnescape r).map (fun t => (4096 * x1 + 256 * x2 + 16 * x3 + x4) :: t)
        | _, _, _, _ => none
      | _ => none
    else (jsonUnescape rest).map (fun t => b :: t)

/-- Suffix of `l` strictly after the last occurrence of `sep`
(`strrchr(l, sep)` followed by `+ 1`), `none` when `sep` does not occur. -/
def afterLast (sep : Char) : List Char → Option (List Char)
  | [] => none
  | c :: rest =>
    match afterLast sep rest with
    | some s => some s
    | none => if c = sep then some rest else none

/-- Filename extraction from main.c: last `/` segment, else last `\`
segment, else the whole path. -/
def basenameL (p : List Char) : List Char :=
  match afterLast '/' p with
  | some s => s
  | none =>
    match afterLast '\\' p with
    | some s => s
    | none => p

/-- `basename` on `String` paths. -/
def basename (p : String) : String := String.mk (basenameL p.data)

/-- Result of the `readFile` binding before serialization: the three exit
shapes of `read_file` in main.c (failure with a reason, the no-growth
fast path, and a full read). -/
inductive ReadResult where
  | failure (error : String)
  | noGrowth (size prevSize : Int)
  | fullRead (content : List Nat) (path name : String) (size prevSize : Int)
deriving DecidableEq

/-- `read_file` from main.c over a pure file-system snapshot `fs`
(path to byte content; `none` means `stat` fails). `offset` is the
caller-supplied `long`. malloc is assumed to succeed and no concurrent
mutation happens between stat, open and read, so `fread` returns exactly
`read_size` bytes. -/
def read_file (fs : String → Option (List Nat)) (path : String) (offset : Int) : ReadResult :=
  if path.length = 0 then .failure "No path provided"
  else
    match fs path with
    | none => .failure "Cannot stat file"
    | some data =>
      let current_size : Int := data.length
      if offset > 0 ∧ current_size ≤ offset then
        .noGrowth current_size offset
      else
        let read_start : Int := if offset > 0 then offset else 0
        let read_size : Int := current_size - read_start
        if read_size > MAX_FILE_SIZE then
          .failure "File too large (max 10MB)"
        else
          let content := (data.drop read_start.toNat).take read_size.toNat
          .fullRead content path (basename path) current_size offset

/-- Bytes rendered as the characters the C code writes into the response
buffer (bytes below 256 map to the matching code points). -/
def bytesToString (l : List Nat) : String := String.mk (l.map Char.ofNat)

/-- The exact response string `read_file` hands to the host: the three
`snprintf` format strings of main.c, with the content run through
`json_escape` and the path and name spliced in unescaped. -/
def response_string : ReadResult → String
  | .failure err =>
    "\x7b\"success\":false,\"error\":\"" ++ err ++ "\"\x7d"
  | .noGrowth size prev =>
    "\x7b\"success\":true,\"content\":\"\",\"size\":" ++ toString size ++
      ",\"prevSize\":" ++ toString prev ++ "\x7d"
  | .fullRead content path name size prev =>
    "\x7b\"success\":true,\"content\":\"" ++ bytesToString (json_escape content) ++
      "\",\"path\":\"" ++ path ++ "\",\"name\":\"" ++ name ++
      "\",\"size\":" ++ toString size ++ ",\"prevSize\":" ++ toString prev ++ "\x7d"

/-- `get_recent_files` from main.c over the persisted store content
(`none` models `fopen` failing: file absent or unreadable). An absent or
empty (`size <= 0`) file yields the literal `[]`; otherwise the raw bytes
are returned. -/
def get_recent_files (recent : Option (List Char)) : List Char :=
  match recent with
  | none => "[]".data
  | some content => if content.length ≤ 0 then "[]".data else content

/-- `add_recent_file` from main.c: given the existing store content
(`none`: file absent, unreadable or empty) and the wall-clock seconds
`sec` from `time(NULL)`, produce the new store content, or `none` when
the empty-path guard fires and nothing is written. The new entry is
spliced in front by skipping the existing list's opening bracket when
the existing content is longer than 2 characters. -/
def add_recent_file (existing : Option (List Char)) (path : List Char) (sec : Nat) :
    Option (List Char) :=
  if path.length = 0 then none
  else
    let name := basenameL path
    let entry := "\x7b\"path\":\"".data ++ path ++ "\",\"name\":\"".data ++ name ++
      "\",\"lastOpened\":".data ++ (toString (sec * 1000)).data ++ "\x7d".data
    match existing with
    | some ex =>
      if ex.length > 2 then some ('[' :: entry ++ ',' :: ex.drop 1)
      else some ('[' :: entry ++ [']'])
    | none => some ('[' :: entry ++ [']'])

/-- Modelled from the spec: the scan of a JSON string body up to its
closing unescaped quote, keeping escape pairs intact; `none` when the
body is unterminated. -/
def rawSpan : List Char → Option (List Char)
  | [] => none
  | c :: rest =>
    if c = '"' then some []
    else if c = '\\' then
      match rest with
      | [] => none
      | d :: r => (rawSpan r).map (fun t => c :: d :: t)
    else (rawSpan rest).map (fun t => c :: t)

/-- Modelled from the spec: standard JSON string-body decoding on
characters — decode the code points with `jsonUnescape` and map the
results back to characters. -/
def charUnescape (l : List Char) : Option (List Char) :=
  (jsonUnescape (l.map Char.toNat)).map (fun t => t.map Char.ofNat)

/-- Modelled from the spec: the persisted store is an encoded list of
path/name/lastOpened records read back by the (out-of-repo) UI; this
extracts the first record's `path` field by standard JSON string
decoding: scan the field body to its closing unescaped quote, then
decode the escapes. -/
def firstEntryPath (s : List Char) : Option (List Char) :=
  match s with
  | '[' :: '\x7b' :: '"' :: 'p' :: 'a' :: 't' :: 'h' :: '"' :: ':' :: '"' :: rest =>
    (rawSpan rest).bind charUnescape
  | _ => none

/-- Same result as a `ReadResult` but with the echoed `prevSize` field
replaced; used to compare calls that differ only in the supplied offset. -/
def withPrev : ReadResult → Int → ReadResult
  | .failure e, _ => .failure e
  | .noGrowth s _, po => .noGrowth s po
  | .fullRead c p n s _, po => .fullRead c p n s po

/-- Concrete snapshot used by witnesses and counterexamples: `"a"` holds
the single byte `A`, `"big"` holds 10485762 zero bytes. -/
def testFS : String → Option (List Nat) :=
  fun p =>
    if p = "a" then some [65]
    else if p = "big" then some (List.replicate 10485762 0)
    else none

/-! ## Helper lemmas -/

/-- Decoding the escape sequence of one byte recovers that byte and
continues with the remainder. -/
lemma unescape_escByte (c : Nat) (rest : List Nat) (hc : c < 256) :
    jsonUnescape (escByte c ++ rest) = (jsonUnescape rest).map (fun t => c :: t) := by
  by_cases h32 : c < 32
  · interval_cases c <;> simp [escByte, jsonUnescape, hexVal, hexDigit]
  · by_cases h34 : c = 34
    · subst h34; simp [escByte, jsonUnescape]
    · by_cases h92 : c = 92
      · subst h92; simp [escByte, jsonUnescape]
      · have h8 : c ≠ 8 := by omega
        have h12 : c ≠ 12 := by omega
        have h10 : c ≠ 10 := by omega
        have h13 : c ≠ 13 := by omega
        have h9 : c ≠ 9 := by omega
        have hesc : escByte c = [c] := by
          simp [escByte, h34, h92, h8, h12, h10, h13, h9, h32]
        rw [hesc]
        show jsonUnescape (c :: rest) = _
        rw [jsonUnescape.eq_def]
        simp [h92]

lemma data_open_entry :
    "\x7b\"path\":\"".data = ['\x7b', '"', 'p', 'a', 't', 'h', '"', ':', '"'] := rfl

lemma data_mid_name :
    "\",\"name\":\"".data = ['"', ',', '"', 'n', 'a', 'm', 'e', '"', ':', '"'] := rfl

/-- A quote-free, backslash-free span is scanned whole, up to its
closing quote. -/
lemma rawSpan_clean (p tail2 : List Char)
    (hq : ∀ c ∈ p, c ≠ '"') (hb : ∀ c ∈ p, c ≠ '\\') :
    rawSpan (p ++ '"' :: tail2) = some p := by
  induction p with
  | nil =>
    rw [List.nil_append, rawSpan.eq_def]
    simp
  | cons c t ih =>
    have hc : c ≠ '"' := hq c (by simp)
    have hcb : c ≠ '\\' := hb c (by simp)
    rw [List.cons_append, rawSpan.eq_def]
    simp [hc, hcb, ih (fun x hx => hq x (by simp [hx])) (fun x hx => hb x (by simp [hx]))]

/-- A byte sequence without backslashes decodes to itself. -/
lemma jsonUnescape_no_backslash (l : List Nat) (h : ∀ b ∈ l, b ≠ 92) :
    jsonUnescape l = some l := by
  induction l with
  | nil => rfl
  | cons b t ih =>
    have hb92 : b ≠ 92 := h b (by simp)
    rw [jsonUnescape.eq_def]
    simp [hb92, ih (fun x hx => h x (by simp [hx]))]

/-- A backslash-free character sequence decodes to itself. -/
lemma charUnescape_clean (p : List Char) (hb : ∀ c ∈ p, c ≠ '\\') :
    charUnescape p = some p := by
  have h92 : ∀ b ∈ p.map Char.toNat, b ≠ 92 := by
    intro b hbm
    rcases List.mem_map.mp hbm with ⟨c, hc, rfl⟩
    intro heq
    apply hb c hc
    rw [← Char.ofNat_toNat c, heq]
  rw [charUnescape, jsonUnescape_no_backslash _ h92]
  have hcomp : Char.ofNat ∘ Char.toNat = id := funext Char.ofNat_toNat
  simp [List.map_map, hcomp]

lemma firstEntryPath_entry (p tail2 : List Char)
    (hq : ∀ c ∈ p, c ≠ '"') (hb : ∀ c ∈ p, c ≠ '\\') :
    firstEntryPath ('[' :: '\x7b' :: '"' :: 'p' :: 'a' :: 't' :: 'h' :: '"' :: ':' :: '"' ::
      (p ++ '"' :: tail2)) = some p := by
  show (rawSpan (p ++ '"' :: tail2)).bind charUnescape = some p
  rw [rawSpan_clean p tail2 hq hb, Option.some_bind]
  exact charUnescape_clean p hb

/-- Whatever the existing store content, a non-empty path makes
`add_recent_file` write the new entry right after the opening bracket. -/
lemma add_recent_file_shape (existing : Option (List Char)) (path : List Char) (sec : Nat)
    (hlen : path.length ≠ 0) :
    ∃ tail, add_recent_file existing path sec =
      some ('[' :: ("\x7b\"path\":\"".data ++ path ++ "\",\"name\":\"".data ++
        basenameL path ++ "\",\"lastOpened\":".data ++
        (toString (sec * 1000)).data ++ "\x7d".data) ++ tail) := by
  cases existing with
  | none =>
    refine ⟨[']'], ?_⟩
    simp only [add_recent_file, if_neg hlen]
  | some ex =>
    by_cases hex : ex.length > 2
    · refine ⟨',' :: ex.drop 1, ?_⟩
      simp only [add_recent_file, if_neg hlen]
      rw [if_pos hex]
    · refine ⟨[']'], ?_⟩
      simp only [add_recent_file, if_neg hlen]
      rw [if_neg hex]

lemma length_ne_zero_of_ne_nil (p : List Char) (h : p ≠ []) : p.length ≠ 0 := by
  cases p with
  | nil => exact absurd rfl h
  | cons c t => simp

/-! ## Claims -/

/-- C1: on a successful `readFile(path, offset)` call with a
spec-conforming offset (`0 ≤ offset`), the returned content is exactly
the bytes of the target file in the range `[previousOffset, currentSize)`
(the no-growth answer is empty and only arises when
`currentSize ≤ offset`). -/
theorem read_file_content_window (fs : String → Option (List Nat)) (path : String)
    (offset : Int) (data : List Nat) (hfs : fs path = some data) (hoff : 0 ≤ offset) :
    (∀ s po, read_file fs path offset = .noGrowth s po →
      s = (data.length : Int) ∧ po = offset ∧ (data.length : Int) ≤ offset) ∧
    (∀ c p n s po, read_file fs path offset = .fullRead c p n s po →
      c = data.drop offset.toNat ∧ s = (data.length : Int) ∧ po = offset) := by
  by_cases hne : path.length = 0
  · simp only [read_file, if_pos hne]
    constructor
    · intro s po h; simp at h
    · intro c p n s po h; simp at h
  · simp only [read_file, if_neg hne, hfs]
    by_cases h1 : offset > 0 ∧ (data.length : Int) ≤ offset
    · rw [if_pos h1]
      constructor
      · intro s po h
        rw [ReadResult.noGrowth.injEq] at h
        exact ⟨h.1.symm, h.2.symm, h.1 ▸ h1.2⟩
      · intro c p n s po h; simp at h
    · rw [if_neg h1]
      have hrs : (if offset > 0 then offset else 0) = offset := by omega
      rw [hrs]
      split_ifs with hbig
      · refine ⟨fun s po h => ?_, fun c p n s po h => ?_⟩ <;> simp at h
      · constructor
        · intro s po h; simp at h
        · intro c p n s po h
          rw [ReadResult.fullRead.injEq] at h
          refine ⟨?_, h.2.2.2.1.symm, h.2.2.2.2.symm⟩
          rw [← h.1]
          have hlen2 : ((data.length : Int) - offset).toNat = (data.drop offset.toNat).length := by
            rw [List.length_drop]
            omega
          rw [hlen2, List.take_length]

/-- Witness for C1 at the one-byte file read from offset 0. -/
theorem read_file_content_window_witness :
    testFS "a" = some [65] ∧ (0 : Int) ≤ 0 ∧
    ((∀ s po, read_file testFS "a" 0 = ReadResult.noGrowth s po →
        s = (([65] : List Nat).length : Int) ∧ po = 0 ∧ (([65] : List Nat).length : Int) ≤ 0) ∧
      (∀ c p n s po, read_file testFS "a" 0 = ReadResult.fullRead c p n s po →
        c = ([65] : List Nat).drop (0 : Int).toNat ∧
          s = (([65] : List Nat).length : Int) ∧ po = 0)) :=
  ⟨by decide, by decide, read_file_content_window testFS "a" 0 [65] (by decide) (by decide)⟩

set_option maxRecDepth 4000 in
/-- C2 counterexample: a successful full read answers with a payload that
contains neither a `currentSize` nor a `previousOffset` key (the code
writes `size` and `prevSize`). -/
theorem wire_names_cex :
    read_file testFS "a" 0 = .fullRead [65] "a" "a" 1 0 ∧
    ¬ ("currentSize".data <:+: (response_string (read_file testFS "a" 0)).data) ∧
    ¬ ("previousOffset".data <:+: (response_string (read_file testFS "a" 0)).data) := by
  decide

/-- C2 (amended): every successful payload — the reduced no-growth shape
and the full-read shape alike — carries the size fields under the names
`size` and `prevSize`; only the full-read shape additionally carries
`path` and `name`. -/
theorem wire_success_payload_shape (fs : String → Option (List Nat)) (path : String)
    (offset : Int) :
    (∀ s po, read_file fs path offset = .noGrowth s po →
      response_string (read_file fs path offset) =
        "\x7b\"success\":true,\"content\":\"\",\"size\":" ++ toString s ++
          ",\"prevSize\":" ++ toString po ++ "\x7d") ∧
    (∀ c p n s po, read_file fs path offset = .fullRead c p n s po →
      response_string (read_file fs path offset) =
        "\x7b\"success\":true,\"content\":\"" ++ bytesToString (json_escape c) ++
          "\",\"path\":\"" ++ p ++ "\",\"name\":\"" ++ n ++
          "\",\"size\":" ++ toString s ++ ",\"prevSize\":" ++ toString po ++ "\x7d") := by
  constructor
  · intro s po h
    rw [h]
    rfl
  · intro c p n s po h
    rw [h]
    rfl

/-- Witness for the amended C2 exercising both success shapes: the
no-growth poll at offset 5 and the full read at offset 0. -/
theorem wire_success_payload_shape_witness :
    response_string (read_file testFS "a" 5) =
      "\x7b\"success\":true,\"content\":\"\",\"size\":" ++ toString (1 : Int) ++
        ",\"prevSize\":" ++ toString (5 : Int) ++ "\x7d" ∧
    response_string (read_file testFS "a" 0) =
      "\x7b\"success\":true,\"content\":\"" ++ bytesToString (json_escape [65]) ++
        "\",\"path\":\"" ++ "a" ++ "\",\"name\":\"" ++ "a" ++
        "\",\"size\":" ++ toString (1 : Int) ++ ",\"prevSize\":" ++ toString (0 : Int) ++
        "\x7d" :=
  ⟨(wire_success_payload_shape testFS "a" 5).1 1 5 (by decide),
    (wire_success_payload_shape testFS "a" 0).2 [65] "a" "a" 1 0 (by decide)⟩

/-- C3: with `offset > 0` and `currentSize ≤ offset`, the call succeeds
with empty content, the current size and `prevSize = offset`, and the
payload carries no `path`/`name` fields (it is exactly the reduced
no-growth string). -/
theorem read_file_no_growth (fs : String → Option (List Nat)) (path : String)
    (offset : Int) (data : List Nat) (hne : path.length ≠ 0) (hfs : fs path = some data)
    (hoff : offset > 0) (hle : (data.length : Int) ≤ offset) :
    read_file fs path offset = .noGrowth data.length offset ∧
    response_string (read_file fs path offset) =
      "\x7b\"success\":true,\"content\":\"\",\"size\":" ++ toString ((data.length : Int)) ++
        ",\"prevSize\":" ++ toString offset ++ "\x7d" := by
  have h1 : read_file fs path offset = .noGrowth data.length offset := by
    simp only [read_file, hfs, if_neg hne, if_pos (And.intro hoff hle)]
  exact ⟨h1, by rw [h1]; rfl⟩

/-- Witness for C3: polling the one-byte file at offset 5. -/
theorem read_file_no_growth_witness :
    read_file testFS "a" 5 = ReadResult.noGrowth (([65] : List Nat).length : Int) 5 ∧
    response_string (read_file testFS "a" 5) =
      "\x7b\"success\":true,\"content\":\"\",\"size\":" ++
        toString ((([65] : List Nat).length : Int)) ++
        ",\"prevSize\":" ++ toString (5 : Int) ++ "\x7d" :=
  read_file_no_growth testFS "a" 5 [65] (by decide) (by decide) (by decide) (by decide)

/-- C4: a read window larger than 10 MiB fails with the file-too-large
reason and returns no content. -/
theorem read_file_too_large (fs : String → Option (List Nat)) (path : String)
    (offset : Int) (data : List Nat) (hne : path.length ≠ 0) (hfs : fs path = some data)
    (hbig : (data.length : Int) - (if offset > 0 then offset else 0) > MAX_FILE_SIZE) :
    read_file fs path offset = .failure "File too large (max 10MB)" := by
  have hng : ¬(offset > 0 ∧ (data.length : Int) ≤ offset) := by
    rintro ⟨h1, h2⟩
    rw [if_pos h1] at hbig
    simp [MAX_FILE_SIZE] at hbig
    omega
  simp only [read_file, hfs, if_neg hne, if_neg hng]
  rw [if_pos hbig]

/-- Witness for C4: a 10485762-byte file read from offset 1 has a
10485761-byte window, one past the cap. -/
theorem read_file_too_large_witness :
    testFS "big" = some (List.replicate 10485762 0) ∧
    read_file testFS "big" 1 = ReadResult.failure "File too large (max 10MB)" :=
  ⟨rfl, read_file_too_large testFS "big" 1 (List.replicate 10485762 0) (by decide) rfl
    (by norm_num [MAX_FILE_SIZE])⟩

/-- C5: reading an existing file of size at most 10 MiB from offset 0
succeeds and returns the whole content with `size` equal to the file
size. -/
theorem read_file_from_zero (fs : String → Option (List Nat)) (path : String)
    (data : List Nat) (hne : path.length ≠ 0) (hfs : fs path = some data)
    (hsz : (data.length : Int) ≤ MAX_FILE_SIZE) :
    read_file fs path 0 = .fullRead data path (basename path) data.length 0 := by
  simp only [read_file, hfs, if_neg hne]
  norm_num
  intro h
  exfalso
  simp [MAX_FILE_SIZE] at h hsz
  omega

/-- Witness for C5 at the one-byte file. -/
theorem read_file_from_zero_witness :
    read_file testFS "a" 0 =
      ReadResult.fullRead [65] "a" (basename "a") (([65] : List Nat).length : Int) 0 :=
  read_file_from_zero testFS "a" [65] (by decide) (by decide) (by decide)

/-- C6: escaping a byte sequence with `json_escape` and then decoding it
with the standard JSON string decoding recovers the original bytes. -/
theorem json_escape_roundtrip (s : List Nat) (h : ∀ b ∈ s, b < 256) :
    jsonUnescape (json_escape s) = some s := by
  induction s with
  | nil => simp [json_escape, jsonUnescape]
  | cons c t ih =>
    have hc : c < 256 := h c (by simp)
    have ht : ∀ b ∈ t, b < 256 := fun b hb => h b (by simp [hb])
    have hstep : json_escape (c :: t) = escByte c ++ json_escape t := by
      simp [json_escape]
    rw [hstep, unescape_escByte c _ hc, ih ht]
    rfl

/-- Witness for C6 on a sequence with a quote, a backslash, a newline, a
tab, control byte 0x01 and a printable byte. -/
theorem json_escape_roundtrip_witness :
    (∀ b ∈ [34, 92, 10, 9, 1, 65], b < 256) ∧
    jsonUnescape (json_escape [34, 92, 10, 9, 1, 65]) = some [34, 92, 10, 9, 1, 65] :=
  ⟨by decide, json_escape_roundtrip [34, 92, 10, 9, 1, 65] (by decide)⟩

/-- C7: `getRecentFiles` never fails: an absent/unreadable store and an
empty store both answer `[]`, and any other persisted content is
returned as-is, unparsed. -/
theorem get_recent_files_total :
    get_recent_files none = "[]".data ∧
    (∀ s : List Char, s.length = 0 → get_recent_files (some s) = "[]".data) ∧
    (∀ s : List Char, 0 < s.length → get_recent_files (some s) = s) := by
  refine ⟨rfl, fun s hs => ?_, fun s hs => ?_⟩
  · simp [get_recent_files, hs]
  · simp only [get_recent_files]
    rw [if_neg (by omega)]

/-- Witness for C7 on a one-character store. -/
theorem get_recent_files_total_witness :
    0 < (['x'] : List Char).length ∧ get_recent_files (some ['x']) = ['x'] :=
  ⟨by decide, get_recent_files_total.2.2 ['x'] (by decide)⟩

/-- C8 counterexample: adding the path `a"b` stores an entry whose
standard first-entry decoding yields `a`, not the added path, and adding
the path `a\b` stores an entry decoding to `a` followed by a backspace,
not the added path. -/
theorem add_unescaped_path_cex :
    ((add_recent_file none ['a', '"', 'b'] 0).isSome = true ∧
      firstEntryPath (get_recent_files ((add_recent_file none ['a', '"', 'b'] 0).getD [])) ≠
        some ['a', '"', 'b']) ∧
    ((add_recent_file none ['a', '\\', 'b'] 0).isSome = true ∧
      firstEntryPath (get_recent_files ((add_recent_file none ['a', '\\', 'b'] 0).getD [])) ≠
        some ['a', '\\', 'b']) := by
  decide

/-- C8 (amended): for every non-empty path containing no quote and no
backslash character, `addRecentFile` followed by `getRecentFiles` yields
a store whose first entry carries exactly the added path, and whose
`lastOpened` is the second-resolution wall clock times 1000: a multiple
of 1000 within one second below the millisecond call time `tms`. -/
theorem add_then_get_first_entry (existing : Option (List Char)) (path : List Char)
    (tms : Nat) (hne : path ≠ []) (hq : ∀ c ∈ path, c ≠ '"')
    (hb : ∀ c ∈ path, c ≠ '\\') :
    ∃ stored rest, add_recent_file existing path (tms / 1000) = some stored ∧
      get_recent_files (some stored) = stored ∧
      stored = '[' :: ("\x7b\"path\":\"".data ++ path ++ "\",\"name\":\"".data ++
        basenameL path ++ "\",\"lastOpened\":".data ++
        (toString (tms / 1000 * 1000)).data ++ "\x7d".data) ++ rest ∧
      firstEntryPath stored = some path ∧
      (tms / 1000 * 1000) % 1000 = 0 ∧
      tms / 1000 * 1000 ≤ tms ∧ tms < tms / 1000 * 1000 + 1000 := by
  have hlen : path.length ≠ 0 := length_ne_zero_of_ne_nil path hne
  obtain ⟨tail, hst⟩ := add_recent_file_shape existing path (tms / 1000) hlen
  have m1 : (tms / 1000 * 1000) % 1000 = 0 := by omega
  have m2 : tms / 1000 * 1000 ≤ tms := by omega
  have m3 : tms < tms / 1000 * 1000 + 1000 := by omega
  refine ⟨_, tail, hst, ?_, rfl, ?_, m1, m2, m3⟩
  · simp only [get_recent_files]
    rw [if_neg (by simp)]
  · simp only [data_open_entry, data_mid_name, List.cons_append, List.append_assoc,
      List.nil_append]
    exact firstEntryPath_entry path _ hq hb

/-- Witness for the amended C8 with path `a` at millisecond time 1234. -/
theorem add_then_get_first_entry_witness :
    ∃ stored rest, add_recent_file none ['a'] (1234 / 1000) = some stored ∧
      get_recent_files (some stored) = stored ∧
      stored = '[' :: ("\x7b\"path\":\"".data ++ ['a'] ++ "\",\"name\":\"".data ++
        basenameL ['a'] ++ "\",\"lastOpened\":".data ++
        (toString (1234 / 1000 * 1000)).data ++ "\x7d".data) ++ rest ∧
      firstEntryPath stored = some ['a'] ∧
      (1234 / 1000 * 1000) % 1000 = 0 ∧
      1234 / 1000 * 1000 ≤ 1234 ∧ 1234 < 1234 / 1000 * 1000 + 1000 :=
  add_then_get_first_entry none ['a'] 1234 (by decide) (by decide) (by decide)

/-- C9 counterexample: `readFile` at offset -1 does not behave
identically to offset 0 — the echoed `prevSize` differs. -/
theorem negative_offset_cex :
    read_file testFS "a" (-1) ≠ read_file testFS "a" 0 := by
  decide

/-- C9 (amended): for every `offset ≤ 0` the call behaves like
`readFile(path, 0)` except that the echoed `prevSize` reports the
supplied offset verbatim: the no-growth fast path is skipped, the read
starts at byte 0 and the whole file is returned. -/
theorem read_file_nonpos_offset (fs : String → Option (List Nat)) (path : String)
    (offset : Int) (h : offset ≤ 0) :
    read_file fs path offset = withPrev (read_file fs path 0) offset := by
  by_cases hne : path.length = 0
  · simp [read_file, hne, withPrev]
  · cases hfs : fs path with
    | none => simp [read_file, hne, hfs, withPrev]
    | some data =>
      have hoff' : ¬ offset > 0 := by omega
      have hng : ¬(offset > 0 ∧ (data.length : Int) ≤ offset) := by omega
      have hng0 : ¬((0 : Int) > 0 ∧ (data.length : Int) ≤ 0) := by
        intro hh; exact absurd hh.1 (lt_irrefl 0)
      simp only [read_file, if_neg hne, hfs, if_neg hng, if_neg hng0, if_neg hoff',
        if_neg (lt_irrefl (0 : Int))]
      split_ifs with hbig
      · rfl
      · rfl

/-- Witness for the amended C9 at offset -1 on the one-byte file. -/
theorem read_file_nonpos_offset_witness :
    read_file testFS "a" (-1) = withPrev (read_file testFS "a" 0) (-1) :=
  read_file_nonpos_offset testFS "a" (-1) (by decide)

/-- C10: `addRecentFile` splices the supplied path and the derived name
into the persisted entry byte-for-byte, with no escaping applied to
either, and the resulting store is not a well-formed encoding of such
paths: standard decoding of the first entry of the store written for the
quote path `a"b` yields the proper prefix `a`, and for the backslash
path `a\b` yields `a` followed by a backspace — neither recovers the
path that was added. -/
theorem add_embeds_path_verbatim (existing : Option (List Char)) (path : List Char)
    (sec : Nat) (hne : path ≠ []) :
    (∃ rest, add_recent_file existing path sec =
      some ('[' :: ("\x7b\"path\":\"".data ++ path ++ "\",\"name\":\"".data ++
        basenameL path ++ "\",\"lastOpened\":".data ++
        (toString (sec * 1000)).data ++ "\x7d".data) ++ rest)) ∧
    firstEntryPath ((add_recent_file none ['a', '"', 'b'] 0).getD []) = some ['a'] ∧
    firstEntryPath ((add_recent_file none ['a', '\\', 'b'] 0).getD []) =
      some ['a', '\x08'] := by
  refine ⟨?_, by decide, by decide⟩
  exact add_recent_file_shape existing path sec (length_ne_zero_of_ne_nil path hne)

/-- Witness for C10 with path `a` at second 7. -/
theorem add_embeds_path_verbatim_witness :
    (∃ rest, add_recent_file none ['a'] 7 =
      some ('[' :: ("\x7b\"path\":\"".data ++ ['a'] ++ "\",\"name\":\"".data ++
        basenameL ['a'] ++ "\",\"lastOpened\":".data ++
        (toString (7 * 1000)).data ++ "\x7d".data) ++ rest)) ∧
    firstEntryPath ((add_recent_file none ['a', '"', 'b'] 0).getD []) = some ['a'] ∧
    firstEntryPath ((add_recent_file none ['a', '\\', 'b'] 0).getD []) =
      some ['a', '\x08'] :=
  add_embeds_path_verbatim none ['a'] 7 (by decide)

end Mocha
